import Mathlib

/-!
# Verification of the LISC scraping core (`lisc/scrape.py`, `lisc/words.py`)

Shallow embedding of the retrieval-and-extraction engine of the repository.
The remote literature-search service, the HTTP requester and the HTML/XML
parser are external collaborators; they are modelled as an *oracle* mapping
request URLs to parsed responses (or to a failure).  Each embedded run
returns the list of observable events (every `req.get_url` call and the
final `req.close`) together with either the produced value or the Python
exception that escaped, so that resource-lifetime and request-count claims
can be stated about the trace.

Machine counts are natural numbers; the only floating-point behaviour the
code relies on is numpy scalar division (which yields `inf`/`nan` on a zero
denominator instead of raising `ZeroDivisionError`), modelled exactly by
`NpFloat`/`npDiv` over exact rationals.
-/

deriving instance DecidableEq for Except

/-- Python exceptions that the embedded code can raise. -/
inductive Err
  | indexError
  | typeError
  | valueError
  | requestError
  | parseError
deriving DecidableEq

/-- Observable events of a run: every HTTP request issued through the
`Requester`, and the final `Requester.close` call. -/
inductive Event
  | request : String → Event
  | close : Event
deriving DecidableEq

/-- A numpy double: a finite value (exact, as a rational — all values the
code produces are exact), positive infinity, or NaN.  Negative values never
arise in this code. -/
inductive NpFloat
  | finite : ℚ → NpFloat
  | inf : NpFloat
  | nan : NpFloat
deriving DecidableEq

/-- numpy scalar division of nonnegative integers: on a zero denominator it
does not raise `ZeroDivisionError` (unlike plain Python floats) but yields
`inf` (or `nan` for `0/0`), with only a runtime warning. -/
def npDiv (num den : ℕ) : NpFloat :=
  if den = 0 then (if num = 0 then NpFloat.nan else NpFloat.inf)
  else NpFloat.finite ((num : ℚ) / (den : ℚ))

/-- Python list indexing `l[i]`: raises `IndexError` when out of range. -/
def pyGet {α : Type} (l : List α) (i : ℕ) : Except Err α :=
  match l[i]? with
  | some v => Except.ok v
  | none => Except.error Err.indexError

/-- Python `list.index(x)`: the first index holding `x`; raises
`ValueError` when absent. -/
def pyIndex {α : Type} [DecidableEq α] : List α → α → Except Err ℕ
  | [], _ => Except.error Err.valueError
  | h :: t, x => if h = x then Except.ok 0 else (pyIndex t x).map (· + 1)

/-- Read cell `(i, j)` of a matrix stored as a list of rows. -/
def getCell {α : Type} (m : List (List α)) (i j : ℕ) : Option α :=
  match m[i]? with
  | some row => row[j]?
  | none => none

/-- numpy-style in-place assignment `m[i, j] = v` on a list-of-rows matrix
(all indices used by the code are in range). -/
def mset {α : Type} (m : List (List α)) (i j : ℕ) (v : α) : List (List α) :=
  match m[i]? with
  | some row => m.set i (row.set j v)
  | none => m

/-- Modelled from the spec: `comb_terms` (from `lisc.core.utils`, not under
src/).  §4.1: a term expression joins a synonym group with an "OR" operator,
wrapped in the service's exact-match (double-quote) syntax; the `'not'`
joiner analogously uses "NOT". -/
def comb_terms (lst : List String) (joiner : String) : String :=
  let op := if joiner = "or" then "\"OR\"" else if joiner = "not" then "\"NOT\"" else joiner
  "(\"" ++ String.intercalate op lst ++ "\")"

/-- `_mk(t_lst, cm='')` from `scrape.py`: the search-term URL component.
Contributes the empty string when the group's first entry is empty
(Python truthiness); `t_lst[0]` on an empty list raises `IndexError`. -/
def _mk (t_lst : List String) (cm : String) : Except Err String :=
  match t_lst.head? with
  | none => Except.error Err.indexError
  | some h => Except.ok (if h ≠ "" then cm ++ comb_terms t_lst "or" else "")

/-- Modelled from the spec: the `URLS` builder (`lisc.core.urls`, not under
src/) concatenates encoded key=value parameters, in the given order, onto a
fixed base path per endpoint kind (§4.1); the search template ends ready for
the term expression to be appended by string concatenation. -/
def base_info (db : String) : String :=
  "einfo.fcgi?db=" ++ db

/-- Modelled from the spec: search URL template used by `scrape_counts`
(parameters `db`, `retmax='0'`, `retmode='xml'`, `field='TIAB'`). -/
def counts_search (db : String) : String :=
  "esearch.fcgi?db=" ++ db ++ "&retmax=0&retmode=xml&field=TIAB&term="

/-- The single-term search URL for concept `a_ind` of set A
(`scrape.py` lines 97–98). -/
def countsAUrl (searchB : String) (A ea : List (List String)) (a_ind : ℕ) :
    Except Err String :=
  match pyGet A a_ind with
  | Except.error e => Except.error e
  | Except.ok ta =>
    match pyGet ea a_ind with
    | Except.error e => Except.error e
    | Except.ok xa =>
      match _mk ta "" with
      | Except.error e => Except.error e
      | Except.ok m1 =>
        match _mk xa "NOT" with
        | Except.error e => Except.error e
        | Except.ok m2 => Except.ok (searchB ++ m1 ++ m2)

/-- The single-term search URL for concept `b_ind` of set B
(`scrape.py` lines 108–109). -/
def countsBUrl (searchB : String) (B eb : List (List String)) (b_ind : ℕ) :
    Except Err String :=
  match pyGet B b_ind with
  | Except.error e => Except.error e
  | Except.ok tb =>
    match pyGet eb b_ind with
    | Except.error e => Except.error e
    | Except.ok xb =>
      match _mk tb "" with
      | Except.error e => Except.error e
      | Except.ok m1 =>
        match _mk xb "NOT" with
        | Except.error e => Except.error e
        | Except.ok m2 => Except.ok (searchB ++ m1 ++ m2)

/-- The combined (co-occurrence) search URL for the pair
`(a_ind, b_ind)` (`scrape.py` lines 113–116). -/
def countsPairUrl (searchB : String) (A ea B eb : List (List String))
    (a_ind b_ind : ℕ) : Except Err String :=
  match pyGet A a_ind with
  | Except.error e => Except.error e
  | Except.ok ta =>
    match pyGet ea a_ind with
    | Except.error e => Except.error e
    | Except.ok xa =>
      match pyGet B b_ind with
      | Except.error e => Except.error e
      | Except.ok tb =>
        match pyGet eb b_ind with
        | Except.error e => Except.error e
        | Except.ok xb =>
          match _mk ta "" with
          | Except.error e => Except.error e
          | Except.ok ma =>
            match _mk xa "NOT" with
            | Except.error e => Except.error e
            | Except.ok mxa =>
              match _mk tb "AND" with
              | Except.error e => Except.error e
              | Except.ok mb =>
                match _mk xb "NOT" with
                | Except.error e => Except.error e
                | Except.ok mxb => Except.ok (searchB ++ ma ++ mxa ++ mb ++ mxb)

/-- Sequencing for trace-producing fallible computations: events of the
first step are kept even when a later step fails (the requests really
happened). -/
def seq {α β : Type} (x : List Event × Except Err α)
    (f : α → List Event × Except Err β) : List Event × Except Err β :=
  match x with
  | (tr, Except.ok a) => ((tr ++ (f a).1), (f a).2)
  | (tr, Except.error e) => (tr, Except.error e)

/-- Lift a pure fallible step (no events). -/
def lift {α : Type} (x : Except Err α) : List Event × Except Err α := ([], x)

/-- Record one HTTP request event. -/
def reqEvent (url : String) : List Event × Except Err Unit :=
  ([Event.request url], Except.ok ())

/-- The oracle for counts-mode runs: the outcome of the database-info
request+parse, and the outcome of `_get_count(req, url)` (request the page
and parse the first `count` tag out of it) for each URL. -/
structure CountsOracle where
  info : Except Err Unit
  count : String → Except Err ℕ

/-- Result tuple of `scrape_counts`
(`dat_numbers, dat_percent, term_a_counts, term_b_counts`). -/
structure CountsResult where
  dat_numbers : List (List ℕ)
  dat_percent : List (List NpFloat)
  term_a_counts : List ℕ
  term_b_counts : List ℕ
deriving DecidableEq

/-- Inner loop of `scrape_counts` (lines 102–120): for each term of set B,
fetch its single-term count, store it at `term_b_counts[b_ind]`, fetch the
combined count, and fill `dat_numbers[a_ind, b_ind]` and
`dat_percent[a_ind, b_ind] = count / term_a_counts[a_ind]` (numpy
division). -/
def counts_b_loop (o : CountsOracle) (searchB : String)
    (A ea B eb : List (List String)) (a_ind aCount : ℕ) :
    List (List String) → List ℕ → List (List ℕ) → List (List NpFloat) →
    List Event × Except Err (List ℕ × List (List ℕ) × List (List NpFloat))
  | [], tbc, nums, perc => ([], Except.ok (tbc, nums, perc))
  | b :: rest, tbc, nums, perc =>
    seq (lift (pyIndex B b)) fun b_ind =>
    seq (lift (countsBUrl searchB B eb b_ind)) fun url1 =>
    seq (reqEvent url1) fun _ =>
    seq (lift (o.count url1)) fun cntB =>
    seq (lift (countsPairUrl searchB A ea B eb a_ind b_ind)) fun url2 =>
    seq (reqEvent url2) fun _ =>
    seq (lift (o.count url2)) fun cnt =>
    counts_b_loop o searchB A ea B eb a_ind aCount rest (tbc.set b_ind cntB)
      (mset nums a_ind b_ind cnt) (mset perc a_ind b_ind (npDiv cnt aCount))

/-- Outer loop of `scrape_counts` (lines 87–120): for each term of set A,
look up its index, fetch its single-term count into
`term_a_counts[a_ind]`, then run the inner loop over set B. -/
def counts_a_loop (o : CountsOracle) (searchB : String)
    (A ea B eb : List (List String)) :
    List (List String) → List ℕ → List ℕ → List (List ℕ) → List (List NpFloat) →
    List Event × Except Err (List ℕ × List ℕ × List (List ℕ) × List (List NpFloat))
  | [], tac, tbc, nums, perc => ([], Except.ok (tac, tbc, nums, perc))
  | a :: rest, tac, tbc, nums, perc =>
    seq (lift (pyIndex A a)) fun a_ind =>
    seq (lift (countsAUrl searchB A ea a_ind)) fun url =>
    seq (reqEvent url) fun _ =>
    seq (lift (o.count url)) fun cntA =>
    seq (counts_b_loop o searchB A ea B eb a_ind cntA B tbc nums perc) fun r =>
    counts_a_loop o searchB A ea B eb rest (tac.set a_ind cntA) r.1 r.2.1 r.2.2

/-- The body of `scrape_counts` up to (excluding) the final `req.close()`:
request the database info page, then run the A×B loop over
zero-initialised count vectors and matrices. -/
def scrape_counts_run (o : CountsOracle) (db : String)
    (A ea B eb : List (List String)) :
    List Event × Except Err (List ℕ × List ℕ × List (List ℕ) × List (List NpFloat)) :=
  seq (reqEvent (base_info db)) fun _ =>
  seq (lift o.info) fun _ =>
  counts_a_loop o (counts_search db) A ea B eb A (List.replicate A.length 0)
    (List.replicate B.length 0)
    (List.replicate A.length (List.replicate B.length 0))
    (List.replicate A.length (List.replicate B.length (NpFloat.finite 0)))

/-- `scrape_counts` after the set-B defaulting step: run the body, then
close the `Requester` and return the result tuple.  On an uncaught
exception the close call is never reached (the source has no try/finally
around the loop). -/
def scrape_counts_main (o : CountsOracle) (db : String)
    (A ea B eb : List (List String)) : List Event × Except Err CountsResult :=
  match scrape_counts_run o db A ea B eb with
  | (tr, Except.ok (tac, tbc, nums, perc)) =>
      (tr ++ [Event.close], Except.ok ⟨nums, perc, tac, tbc⟩)
  | (tr, Except.error e) => (tr, Except.error e)

/-- `scrape_counts(terms_lst_a, excls_lst_a=[], terms_lst_b=[],
excls_lst_b=[], db='pubmed')`:  when `terms_lst_b` is empty it is replaced
by `terms_lst_a` and `excls_lst_b` by `excls_lst_a` (lines 62–64), then the
main routine runs.  Python's default argument values correspond to passing
`[]` explicitly. -/
def scrape_counts (o : CountsOracle) (A ea B eb : List (List String))
    (db : String) : List Event × Except Err CountsResult :=
  if B.length = 0 then scrape_counts_main o db A ea A ea
  else scrape_counts_main o db A ea B eb

/-- A parsed search-response page for `scrape_words`: the service-reported
total `count`, the history cursor pair (`webenv`, `querykey`), and the list
of identifier nodes (the `<id>` tags, used when history is off). -/
structure SearchPage where
  count : ℕ
  webenv : String
  querykey : String
  ids : List String
deriving DecidableEq

/-- The oracle for words-mode runs: outcome of the database-info
request+parse, of a search request+parse, and of one article fetch page
(`_scrape_papers`: request, parse, and fold all articles into the current
`Data` object — the per-article data itself is outside these claims). -/
structure WordsOracle where
  info : Except Err Unit
  search : String → Except Err SearchPage
  fetchPage : String → Except Err Unit

/-- Modelled from the spec: search URL template used by `scrape_words`
(parameters `db`, `usehistory`, `retmax`, `retmode`, `field`; a `None`
`retmax` is omitted, §4.1). -/
def words_search (db : String) (use_hist : Bool) (retmax : Option ℕ) : String :=
  "esearch.fcgi?db=" ++ db ++ "&usehistory=" ++ (if use_hist then "y" else "n") ++
  (match retmax with
   | some r => "&retmax=" ++ toString r
   | none => "") ++ "&retmode=xml&field=TIAB&term="

/-- Modelled from the spec: fetch URL template (parameters `db`,
`retmode`). -/
def base_fetch (db : String) : String :=
  "efetch.fcgi?db=" ++ db ++ "&retmode=xml"

/-- The article-fetch URL of one history-mode page (`scrape.py`
lines 221–222), with the fixed `retmax` page size of 100. -/
def artUrl (fetchB we qk : String) (ret_start : ℕ) : String :=
  fetchB ++ "&WebEnv=" ++ we ++ "&query_key=" ++ qk ++
    "&retstart=" ++ toString ret_start ++ "&retmax=" ++ toString (100 : ℕ)

/-- `_ids_to_str(ids)` from `scrape.py`: initialises the result with
`ids[0]` — raising `IndexError` on an empty id list — then appends the
remaining ids comma-separated. -/
def _ids_to_str (ids : List String) : Except Err String :=
  match ids with
  | [] => Except.error Err.indexError
  | h :: t => Except.ok (t.foldl (fun acc s => acc ++ "," ++ s) h)

/-- The sequence of `ret_start` offsets produced by the history-mode
`while ret_start < count` loop with the fixed step `ret_max = 100`
(`scrape.py` lines 209–224). -/
def histLoop (count s : ℕ) : List ℕ :=
  if _h : s < count then s :: histLoop count (s + 100) else []
termination_by count - s
decreasing_by omega

/-- The history-mode fetch loop (`scrape.py` lines 218–224): while
`ret_start < count`, request the next fetch page and hand it to
`_scrape_papers`, then advance `ret_start` by the page size. -/
def hist_fetch_loop (o : WordsOracle) (fetchB we qk : String) (count s : ℕ) :
    List Event × Except Err Unit :=
  if _h : s < count then
    match o.fetchPage (artUrl fetchB we qk s) with
    | Except.ok _ =>
      let r := hist_fetch_loop o fetchB we qk count (s + 100)
      (Event.request (artUrl fetchB we qk s) :: r.1, r.2)
    | Except.error e => ([Event.request (artUrl fetchB we qk s)], Except.error e)
  else ([], Except.ok ())
termination_by count - s
decreasing_by omega

/-- The search-term argument of one concept (`scrape.py` lines 190–193):
exclusions are appended only when `exclusions[ind][0]` is truthy. -/
def wordsTermArg (term excl : List String) : Except Err String :=
  match pyGet excl 0 with
  | Except.error e => Except.error e
  | Except.ok e0 =>
    if e0 ≠ "" then Except.ok (comb_terms term "or" ++ comb_terms excl "not")
    else Except.ok (comb_terms term "or")

/-- Processing of one concept inside `scrape_words` (lines 186–244): build
the search URL, request and parse it, then either drain the history cursor
(fixed page size 100) or fetch once over the comma-joined id list.  The
`Data`-object bookkeeping (`update_history`, `check_results`,
`save_n_clear`) touches no shared resource tracked here. -/
def words_concept (o : WordsOracle) (searchB fetchB : String) (use_hist : Bool)
    (term excl : List String) : List Event × Except Err Unit :=
  seq (lift (wordsTermArg term excl)) fun targ =>
  seq (reqEvent (searchB ++ targ)) fun _ =>
  seq (lift (o.search (searchB ++ targ))) fun page =>
  if use_hist then
    hist_fetch_loop o fetchB page.webenv page.querykey page.count 0
  else
    seq (lift (_ids_to_str page.ids)) fun ids_str =>
    seq (reqEvent (fetchB ++ "&id=" ++ ids_str)) fun _ =>
    lift (o.fetchPage (fetchB ++ "&id=" ++ ids_str))

/-- Loop of `scrape_words` over `enumerate(labels)` (line 180): `terms[ind]`
and `exclusions[ind]` are indexed by the label position and may raise
`IndexError` when the lists are shorter than `labels`. -/
def words_loop (o : WordsOracle) (searchB fetchB : String) (use_hist : Bool)
    (terms excls : List (List String)) :
    List (ℕ × String) → List Event × Except Err Unit
  | [] => ([], Except.ok ())
  | (ind, _lab) :: rest =>
    seq (lift (pyGet terms ind)) fun term =>
    seq (lift (pyGet excls ind)) fun excl =>
    seq (words_concept o searchB fetchB use_hist term excl) fun _ =>
    words_loop o searchB fetchB use_hist terms excls rest

/-- The body of `scrape_words(terms, labels, exclusions, db='pubmed',
retmax=None, use_hist=False)` up to (excluding) the final `req.close()`:
request the database info page, then process every labelled concept. -/
def scrape_words_run (o : WordsOracle) (terms : List (List String))
    (labels : List String) (exclusions : List (List String)) (db : String)
    (retmax : Option ℕ) (use_hist : Bool) : List Event × Except Err Unit :=
  seq (reqEvent (base_info db)) fun _ =>
  seq (lift o.info) fun _ =>
  words_loop o (words_search db use_hist retmax) (base_fetch db) use_hist
    terms exclusions labels.enum

/-- `scrape_words` itself: run the body, then close the `Requester`; the
function body has no return statement, so a completed run returns `None`.
On an uncaught exception the close call is never reached. -/
def scrape_words (o : WordsOracle) (terms : List (List String))
    (labels : List String) (exclusions : List (List String)) (db : String)
    (retmax : Option ℕ) (use_hist : Bool) : List Event × Except Err Unit :=
  match scrape_words_run o terms labels exclusions db retmax use_hist with
  | (tr, Except.ok _) => (tr ++ [Event.close], Except.ok ())
  | (tr, Except.error e) => (tr, Except.error e)

/-- Python `str.lower()` (ASCII case folding suffices for the texts the
claims use). -/
def pyLower (s : String) : String := String.mk (s.data.map Char.toLower)

/-- Python `str.isalnum()`: non-empty and every character alphanumeric
(ASCII range suffices for the texts the claims use). -/
def pyIsAlnum (s : String) : Bool := !s.data.isEmpty && s.data.all Char.isAlphanum

/-- `_process_words(text)` from `scrape.py`, under the `CatchNone`
decorator.  Modelled from the spec for the parts not under src/: the
`CatchNone` decorator (`lisc.core.utils`) turns an absent input into the
absent marker `None` (§4.4 / §9), and the tokenizer (`nltk.word_tokenize`)
is the pluggable text-normalizer collaborator, passed as a parameter
(§6).  The body is the source's list comprehension: keep the lowercased
word when it is not a stopword and `isalnum()` holds. -/
def _process_words (tokenize : String → List String) (stop : List String) :
    Option String → Option (List String)
  | none => none
  | some text =>
    some (((tokenize text).filter
      (fun w => !(stop.contains (pyLower w)) && pyIsAlnum w)).map pyLower)

/-- Helper of `simpleTokenize`: scans the character list, accumulating the
current word (reversed); spaces end the current word, a period ends it and
becomes its own token. -/
def simpleTokenizeAux : List Char → List Char → List String
  | [], acc => if acc.isEmpty then [] else [String.mk acc.reverse]
  | c :: rest, acc =>
    if c = ' ' then
      (if acc.isEmpty then [] else [String.mk acc.reverse]) ++ simpleTokenizeAux rest []
    else if c = '.' then
      (if acc.isEmpty then [] else [String.mk acc.reverse]) ++ ["."] ++ simpleTokenizeAux rest []
    else simpleTokenizeAux rest (c :: acc)

/-- Modelled from the spec: a concrete instance of the text-normalizer
collaborator (§6) used to witness the extraction claims — splits on
spaces and detaches periods as their own tokens, as `nltk.word_tokenize`
does on the texts the claims use. -/
def simpleTokenize (text : String) : List String :=
  simpleTokenizeAux text.data []

/-- One formal parameter of a Python function: its name, and whether it
carries a default value. -/
structure Param where
  name : String
  hasDefault : Bool
deriving DecidableEq

/-- The signature of `scrape_words(terms, labels, exclusions, db='pubmed',
retmax=None, use_hist=False, verbose=False)` (`scrape.py` line 128):
three required parameters, four with defaults. -/
def scrape_words_sig : List Param :=
  [⟨"terms", false⟩, ⟨"labels", false⟩, ⟨"exclusions", false⟩,
   ⟨"db", true⟩, ⟨"retmax", true⟩, ⟨"use_hist", true⟩, ⟨"verbose", true⟩]

/-- Python call-argument binding: `nPos` positional arguments fill the
leading parameters in order, keyword arguments fill parameters by name;
the call raises `TypeError` — before the callee's body runs — when there
are too many positional arguments, an unknown or doubly-bound keyword, or
a required parameter left without a value. -/
def bindCall (sig : List Param) (nPos : ℕ) (kw : List String) : Except Err Unit :=
  if sig.length < nPos then Except.error Err.typeError
  else if kw.any (fun k => !(sig.map Param.name).contains k) then Except.error Err.typeError
  else if kw.any (fun k => ((sig.take nPos).map Param.name).contains k) then Except.error Err.typeError
  else if (sig.drop nPos).any (fun p => !p.hasDefault && !kw.contains p.name) then
    Except.error Err.typeError
  else Except.ok ()

/-- A Python runtime value, as far as the claims need: `None`, or a tuple. -/
inductive PyVal
  | none : PyVal
  | tuple : List PyVal → PyVal

/-- Python unpacking `a, b = v`: succeeds only on a 2-tuple; unpacking
`None` raises `TypeError`. -/
def unpack2 (v : PyVal) : Except Err (PyVal × PyVal) :=
  match v with
  | PyVal.tuple [a, b] => Except.ok (a, b)
  | _ => Except.error Err.typeError

/-- `Words.run_scrape` (`words.py` lines 68–73): it calls
`scrape_words(self.terms, self.exclusions, db=db, retmax=retmax,
use_hist=use_hist, verbose=verbose)` — two positional arguments and four
keywords — and unpacks the result into `(self.results, self.meta_dat)`.
Argument binding happens before the callee runs, so a binding failure
yields an empty event trace; were binding to succeed, the body would run
and its `None` return would be unpacked. -/
def run_scrape_model : List Event × Except Err (PyVal × PyVal) :=
  match bindCall scrape_words_sig 2 ["db", "retmax", "use_hist", "verbose"] with
  | Except.error e => ([], Except.error e)
  | Except.ok _ => ([], unpack2 PyVal.none)

/-- Well-formed matrix shape: `nrows` rows, each of length `ncols`. -/
abbrev Shape {α : Type} (m : List (List α)) (nrows ncols : ℕ) : Prop :=
  m.length = nrows ∧ ∀ (i : ℕ) (row : List α), m[i]? = some row → row.length = ncols

/-- Single-term search URL (no exclusions) for a one-synonym concept, as
the embedded `scrape_counts` builds it against db `pubmed`. -/
def exU (t : String) : String :=
  counts_search "pubmed" ++ "(\"" ++ t ++ "\")"

/-- Combined pair search URL for two one-synonym concepts (no
exclusions). -/
def exP (t u : String) : String :=
  counts_search "pubmed" ++ "(\"" ++ t ++ "\")" ++ "AND(\"" ++ u ++ "\")"

/-- Mocked service counts of the spec's co-occurrence example: single-term
counts x=10, y=20; combined counts (x,x)=10, (x,y)=4, (y,x)=4, (y,y)=20. -/
def exCnt (url : String) : ℕ :=
  if url = exP "x" "x" then 10 else if url = exP "x" "y" then 4
  else if url = exP "y" "x" then 4 else if url = exP "y" "y" then 20
  else if url = exU "x" then 10 else if url = exU "y" then 20 else 0

/-- Oracle for the co-occurrence example: every request succeeds with the
mocked counts. -/
def exOracle : CountsOracle := ⟨Except.ok (), fun url => Except.ok (exCnt url)⟩

/-- Oracle whose every count request succeeds with 0. -/
def uniOracle : CountsOracle := ⟨Except.ok (), fun _ => Except.ok 0⟩

/-- Oracle whose count requests all fail (e.g. a non-success HTTP status
turned into a `RequestError`). -/
def failOracle : CountsOracle := ⟨Except.ok (), fun _ => Except.error Err.requestError⟩

/-- Mocked counts with a zero single-term count for x but a positive pair
count. -/
def zCnt (url : String) : ℕ := if url = exP "x" "x" then 5 else 0

/-- Oracle realising a zero A-side single-term count. -/
def zOracle : CountsOracle := ⟨Except.ok (), fun url => Except.ok (zCnt url)⟩

/-- Words-mode oracle: every search reports 250 results with a history
cursor and two ids; every fetch succeeds. -/
def wOracle : WordsOracle :=
  ⟨Except.ok (), fun _ => Except.ok ⟨250, "WE", "QK", ["11", "22"]⟩,
   fun _ => Except.ok ()⟩

/-- Words-mode oracle whose search response contains zero identifier
nodes. -/
def wEmptyOracle : WordsOracle :=
  ⟨Except.ok (), fun _ => Except.ok ⟨0, "WE", "QK", []⟩, fun _ => Except.ok ()⟩

/-! ## Helper lemmas -/

@[simp] theorem seq_ok {α β : Type} (tr : List Event) (a : α)
    (f : α → List Event × Except Err β) :
    seq (tr, Except.ok a) f = (tr ++ (f a).1, (f a).2) := rfl

@[simp] theorem seq_error {α β : Type} (tr : List Event) (e : Err)
    (f : α → List Event × Except Err β) :
    seq (tr, Except.error e) f = (tr, Except.error e) := rfl

@[simp] theorem lift_ok {α : Type} (a : α) :
    lift (Except.ok a) = (([] : List Event), Except.ok a) := rfl

@[simp] theorem lift_error {α : Type} (e : Err) :
    lift (Except.error e) = (([] : List Event), (Except.error e : Except Err α)) := rfl

theorem histLoop_stop (count s : ℕ) (h : ¬ s < count) : histLoop count s = [] := by
  rw [histLoop]
  simp [h]

theorem histLoop_step (count s : ℕ) (h : s < count) :
    histLoop count s = s :: histLoop count (s + 100) := by
  rw [histLoop]
  simp [h]

theorem histLoop_eq_map_aux (count : ℕ) :
    ∀ n s, count ≤ s + 100 * n →
      histLoop count s = (List.range ((count - s + 99) / 100)).map (fun i => s + i * 100) := by
  intro n
  induction n with
  | zero =>
    intro s hs
    have h1 : ¬ s < count := by omega
    have h2 : (count - s + 99) / 100 = 0 := by omega
    rw [histLoop_stop count s h1, h2]
    simp
  | succ m ih =>
    intro s hs
    by_cases h : s < count
    · rw [histLoop_step count s h, ih (s + 100) (by omega)]
      have h2 : (count - s + 99) / 100 = (count - (s + 100) + 99) / 100 + 1 := by omega
      rw [h2, List.range_succ_eq_map, List.map_cons, List.map_map]
      refine List.cons_eq_cons.mpr ⟨by simp, ?_⟩
      apply List.map_congr_left
      intro i _
      simp only [Function.comp_apply]
      omega
    · rw [histLoop_stop count s h]
      have h2 : (count - s + 99) / 100 = 0 := by omega
      rw [h2]
      simp

/-- Closed form of the history-loop offsets: exactly
`0, 100, 200, …` for `ceil(count / 100)` iterations. -/
theorem histLoop_eq_map (count : ℕ) :
    histLoop count 0 = (List.range ((count + 99) / 100)).map (fun i => i * 100) := by
  have := histLoop_eq_map_aux count count 0 (by omega)
  simpa using this

theorem hist_fetch_loop_eq_aux (o : WordsOracle) (fetchB we qk : String)
    (count : ℕ) (hf : ∀ url, o.fetchPage url = Except.ok ()) :
    ∀ n s, count ≤ s + 100 * n →
      hist_fetch_loop o fetchB we qk count s =
        ((histLoop count s).map (fun r => Event.request (artUrl fetchB we qk r)),
         Except.ok ()) := by
  intro n
  induction n with
  | zero =>
    intro s hs
    have h1 : ¬ s < count := by omega
    rw [hist_fetch_loop, histLoop_stop count s h1]
    simp [h1]
  | succ m ih =>
    intro s hs
    by_cases h : s < count
    · rw [hist_fetch_loop, histLoop_step count s h]
      simp only [h, dif_pos, hf (artUrl fetchB we qk s)]
      rw [ih (s + 100) (by omega)]
      simp
    · rw [hist_fetch_loop, histLoop_stop count s h]
      simp [h]

/-- When every fetch succeeds, the history loop issues exactly one fetch
request per `histLoop` offset, in order, and succeeds. -/
theorem hist_fetch_loop_eq (o : WordsOracle) (fetchB we qk : String)
    (count : ℕ) (hf : ∀ url, o.fetchPage url = Except.ok ()) :
    hist_fetch_loop o fetchB we qk count 0 =
      ((histLoop count 0).map (fun r => Event.request (artUrl fetchB we qk r)),
       Except.ok ()) :=
  hist_fetch_loop_eq_aux o fetchB we qk count hf count 0 (by omega)

theorem pyIndex_getElem {α : Type} [DecidableEq α] (B : List α) (hnd : B.Nodup) :
    ∀ k : ℕ, ∀ hk : k < B.length, pyIndex B B[k] = Except.ok k := by
  induction B with
  | nil => intro k hk; simp at hk
  | cons h t ih =>
    intro k hk
    match k with
    | 0 => simp [pyIndex]
    | k + 1 =>
      have hk' : k < t.length := by simpa using hk
      have hmem : h ∉ t := (List.nodup_cons.mp hnd).1
      have hne : h ≠ t[k] := by
        intro he
        exact hmem (he ▸ List.getElem_mem hk')
      simp only [List.getElem_cons_succ]
      rw [pyIndex, if_neg hne, ih (List.nodup_cons.mp hnd).2 k hk']
      rfl

theorem getElem?_some_lt {α : Type} {m : List α} {i : ℕ} {x : α}
    (hm : m[i]? = some x) : i < m.length := by
  by_contra hc
  rw [List.getElem?_eq_none (by omega)] at hm
  exact Option.noConfusion hm

theorem length_mset {α : Type} (m : List (List α)) (i j : ℕ) (v : α) :
    (mset m i j v).length = m.length := by
  unfold mset
  cases hm : m[i]? with
  | some row => simp
  | none => simp

theorem getCell_mset_same {α : Type} (m : List (List α)) (i j : ℕ) (v : α)
    (row : List α) (hi : m[i]? = some row) (hj : j < row.length) :
    getCell (mset m i j v) i j = some v := by
  unfold mset getCell
  rw [hi]
  simp only [List.getElem?_set_eq_of_lt _ (getElem?_some_lt hi)]
  rw [List.getElem?_set_eq_of_lt _ hj]

theorem getCell_mset_other {α : Type} (m : List (List α)) (i j i' j' : ℕ) (v : α)
    (hne : i' ≠ i ∨ j' ≠ j) :
    getCell (mset m i j v) i' j' = getCell m i' j' := by
  unfold mset getCell
  cases hm : m[i]? with
  | none => rfl
  | some row =>
    by_cases hii : i' = i
    · have hjj : j' ≠ j := by tauto
      subst hii
      rw [List.getElem?_set_eq_of_lt _ (getElem?_some_lt hm), hm]
      show (row.set j v)[j']? = row[j']?
      exact List.getElem?_set_ne (by omega)
    · rw [show (m.set i (row.set j v))[i']? = m[i']? from List.getElem?_set_ne (by omega)]

theorem rowlen_mset {α : Type} (m : List (List α)) (i j i' : ℕ) (v : α) :
    ((mset m i j v)[i']?).map List.length = (m[i']?).map List.length := by
  unfold mset
  cases hm : m[i]? with
  | none => rfl
  | some row =>
    by_cases hii : i' = i
    · subst hii
      rw [List.getElem?_set_eq_of_lt _ (getElem?_some_lt hm), hm]
      simp
    · rw [List.getElem?_set_ne (by omega)]


theorem Shape_replicate {α : Type} (nrows ncols : ℕ) (v : α) :
    Shape (List.replicate nrows (List.replicate ncols v)) nrows ncols := by
  constructor
  · simp
  · intro i row h
    rw [List.getElem?_replicate] at h
    split at h
    · cases h
      simp
    · exact Option.noConfusion h

theorem Shape_mset {α : Type} (m : List (List α)) (nrows ncols i j : ℕ) (v : α)
    (hs : Shape m nrows ncols) : Shape (mset m i j v) nrows ncols := by
  constructor
  · rw [length_mset]; exact hs.1
  · intro i' row h
    have := rowlen_mset m i j i' v
    rw [h] at this
    cases hrow : m[i']? with
    | none => rw [hrow] at this; exact Option.noConfusion this
    | some row' =>
      rw [hrow] at this
      simp only [Option.map_some', Option.some.injEq] at this
      rw [this]
      exact hs.2 i' row' hrow

theorem Shape_row {α : Type} {m : List (List α)} {nrows ncols i : ℕ}
    (hs : Shape m nrows ncols) (hi : i < nrows) :
    ∃ row, m[i]? = some row ∧ row.length = ncols := by
  have hlen : i < m.length := by rw [hs.1]; exact hi
  cases hrow : m[i]? with
  | none => rw [List.getElem?_eq_none_iff] at hrow; omega
  | some row => exact ⟨row, rfl, hs.2 i row hrow⟩

/-- Full characterisation of the inner (set-B) loop of `scrape_counts` when
every request succeeds: processing the suffix of B from position `k` issues,
per remaining concept, one single-term request then one pair request, and
writes `term_b_counts[j]`, `dat_numbers[a_ind, j]` and
`dat_percent[a_ind, j] = numpy-div of the pair count by the A count`. -/
theorem counts_b_loop_spec (o : CountsOracle) (searchB : String)
    (A ea B eb : List (List String)) (a_ind aCount : ℕ) (cnt : String → ℕ)
    (bU pU : ℕ → String)
    (ho : ∀ url, o.count url = Except.ok (cnt url))
    (hnd : B.Nodup)
    (hbU : ∀ j, j < B.length → countsBUrl searchB B eb j = Except.ok (bU j))
    (hpU : ∀ j, j < B.length → countsPairUrl searchB A ea B eb a_ind j = Except.ok (pU j))
    (ha : a_ind < A.length) :
    ∀ n k tbc nums perc, B.length - k = n → k ≤ B.length →
      tbc.length = B.length →
      Shape nums A.length B.length → Shape perc A.length B.length →
      ∃ tbc' nums' perc',
        counts_b_loop o searchB A ea B eb a_ind aCount (B.drop k) tbc nums perc =
          ((List.range' k (B.length - k)).flatMap
             (fun j => [Event.request (bU j), Event.request (pU j)]),
           Except.ok (tbc', nums', perc')) ∧
        tbc'.length = B.length ∧
        Shape nums' A.length B.length ∧ Shape perc' A.length B.length ∧
        (∀ j, tbc'[j]? = if k ≤ j ∧ j < B.length then some (cnt (bU j)) else tbc[j]?) ∧
        (∀ i j, getCell nums' i j =
           if i = a_ind ∧ k ≤ j ∧ j < B.length then some (cnt (pU j))
           else getCell nums i j) ∧
        (∀ i j, getCell perc' i j =
           if i = a_ind ∧ k ≤ j ∧ j < B.length then some (npDiv (cnt (pU j)) aCount)
           else getCell perc i j) := by
  intro n
  induction n with
  | zero =>
    intro k tbc nums perc hn hk htbc hnums hperc
    have hkB : k = B.length := by omega
    refine ⟨tbc, nums, perc, ?_, htbc, hnums, hperc, ?_, ?_, ?_⟩
    · rw [List.drop_eq_nil_of_le (by omega), hn]
      simp [counts_b_loop]
    · intro j; rw [if_neg (by omega)]
    · intro i j; rw [if_neg (by omega)]
    · intro i j; rw [if_neg (by omega)]
  | succ m ih =>
    intro k tbc nums perc hn hk htbc hnums hperc
    have hkB : k < B.length := by omega
    obtain ⟨tbc', nums', perc', heq, htbc', hnums', hperc', htbcp, hnumsp, hpercp⟩ :=
      ih (k + 1) (tbc.set k (cnt (bU k)))
        (mset nums a_ind k (cnt (pU k)))
        (mset perc a_ind k (npDiv (cnt (pU k)) aCount))
        (by omega) (by omega) (by rw [List.length_set]; exact htbc)
        (Shape_mset _ _ _ _ _ _ hnums) (Shape_mset _ _ _ _ _ _ hperc)
    refine ⟨tbc', nums', perc', ?_, htbc', hnums', hperc', ?_, ?_, ?_⟩
    · rw [List.drop_eq_getElem_cons hkB, counts_b_loop, pyIndex_getElem B hnd k hkB]
      simp only [seq_ok, lift_ok, List.nil_append, reqEvent, hbU k hkB, ho, hpU k hkB]
      rw [heq]
      have hr : B.length - k = (B.length - (k + 1)) + 1 := by omega
      rw [hr, List.range'_succ]
      simp
    · intro j
      rw [htbcp j]
      by_cases h1 : k + 1 ≤ j ∧ j < B.length
      · rw [if_pos h1, if_pos (by omega)]
      · rw [if_neg h1]
        by_cases h2 : j = k
        · subst h2
          rw [if_pos (by omega), List.getElem?_set_eq_of_lt _ (by omega)]
        · rw [if_neg (by omega), List.getElem?_set_ne (by omega)]
    · intro i j
      rw [hnumsp i j]
      by_cases h1 : i = a_ind ∧ k + 1 ≤ j ∧ j < B.length
      · rw [if_pos h1, if_pos (by omega)]
      · rw [if_neg h1]
        by_cases h2 : i = a_ind ∧ j = k
        · obtain ⟨h2i, h2j⟩ := h2
          subst h2i; subst h2j
          obtain ⟨row, hrow, hrlen⟩ := Shape_row hnums ha
          rw [if_pos (by omega), getCell_mset_same _ _ _ _ _ hrow (by omega)]
        · rw [if_neg (by omega), getCell_mset_other _ _ _ _ _ _ (by omega)]
    · intro i j
      rw [hpercp i j]
      by_cases h1 : i = a_ind ∧ k + 1 ≤ j ∧ j < B.length
      · rw [if_pos h1, if_pos (by omega)]
      · rw [if_neg h1]
        by_cases h2 : i = a_ind ∧ j = k
        · obtain ⟨h2i, h2j⟩ := h2
          subst h2i; subst h2j
          obtain ⟨row, hrow, hrlen⟩ := Shape_row hperc ha
          rw [if_pos (by omega), getCell_mset_same _ _ _ _ _ hrow (by omega)]
        · rw [if_neg (by omega), getCell_mset_other _ _ _ _ _ _ (by omega)]

/-- Full characterisation of the outer (set-A) loop of `scrape_counts` when
every request succeeds: each iteration issues one A single-term request and
then re-runs the whole inner loop over set B — so every B single-term count
is requested once per outer iteration — filling `term_a_counts` and one
matrix row per A concept. -/
theorem counts_a_loop_spec (o : CountsOracle) (searchB : String)
    (A ea B eb : List (List String)) (cnt : String → ℕ)
    (aU bU : ℕ → String) (pU : ℕ → ℕ → String)
    (ho : ∀ url, o.count url = Except.ok (cnt url))
    (hndA : A.Nodup) (hndB : B.Nodup)
    (haU : ∀ i, i < A.length → countsAUrl searchB A ea i = Except.ok (aU i))
    (hbU : ∀ j, j < B.length → countsBUrl searchB B eb j = Except.ok (bU j))
    (hpU : ∀ i, i < A.length → ∀ j, j < B.length →
      countsPairUrl searchB A ea B eb i j = Except.ok (pU i j)) :
    ∀ n k tac tbc nums perc, A.length - k = n → k ≤ A.length →
      tac.length = A.length → tbc.length = B.length →
      Shape nums A.length B.length → Shape perc A.length B.length →
      ∃ tac' tbc' nums' perc',
        counts_a_loop o searchB A ea B eb (A.drop k) tac tbc nums perc =
          ((List.range' k (A.length - k)).flatMap
             (fun i => Event.request (aU i) ::
               (List.range' 0 B.length).flatMap
                 (fun j => [Event.request (bU j), Event.request (pU i j)])),
           Except.ok (tac', tbc', nums', perc')) ∧
        tac'.length = A.length ∧ tbc'.length = B.length ∧
        Shape nums' A.length B.length ∧ Shape perc' A.length B.length ∧
        (∀ i, tac'[i]? = if k ≤ i ∧ i < A.length then some (cnt (aU i)) else tac[i]?) ∧
        (∀ j, tbc'[j]? = if k < A.length ∧ j < B.length then some (cnt (bU j)) else tbc[j]?) ∧
        (∀ i j, getCell nums' i j =
           if k ≤ i ∧ i < A.length ∧ j < B.length then some (cnt (pU i j))
           else getCell nums i j) ∧
        (∀ i j, getCell perc' i j =
           if k ≤ i ∧ i < A.length ∧ j < B.length then
             some (npDiv (cnt (pU i j)) (cnt (aU i)))
           else getCell perc i j) := by
  intro n
  induction n with
  | zero =>
    intro k tac tbc nums perc hn hk htac htbc hnums hperc
    have hkA : k = A.length := by omega
    refine ⟨tac, tbc, nums, perc, ?_, htac, htbc, hnums, hperc, ?_, ?_, ?_, ?_⟩
    · rw [List.drop_eq_nil_of_le (by omega), hn]
      simp [counts_a_loop]
    · intro i; rw [if_neg (by omega)]
    · intro j; rw [if_neg (by omega)]
    · intro i j; rw [if_neg (by omega)]
    · intro i j; rw [if_neg (by omega)]
  | succ m ih =>
    intro k tac tbc nums perc hn hk htac htbc hnums hperc
    have hkA : k < A.length := by omega
    obtain ⟨tbc', nums', perc', hinner, htbc', hnums', hperc', htbcp, hnumsp, hpercp⟩ :=
      counts_b_loop_spec o searchB A ea B eb k (cnt (aU k)) cnt bU (pU k) ho hndB hbU
        (hpU k hkA) hkA B.length 0 tbc nums perc (by omega) (by omega) htbc hnums hperc
    simp only [List.drop_zero, Nat.sub_zero] at hinner
    obtain ⟨tac', tbc'', nums'', perc'', heq, htac'', htbc'', hnums'', hperc'',
        htacp, htbcp', hnumsp', hpercp'⟩ :=
      ih (k + 1) (tac.set k (cnt (aU k))) tbc' nums' perc' (by omega) (by omega)
        (by rw [List.length_set]; exact htac) htbc' hnums' hperc'
    refine ⟨tac', tbc'', nums'', perc'', ?_, htac'', htbc'', hnums'', hperc'',
      ?_, ?_, ?_, ?_⟩
    · rw [List.drop_eq_getElem_cons hkA, counts_a_loop, pyIndex_getElem A hndA k hkA]
      simp only [seq_ok, lift_ok, List.nil_append, reqEvent, haU k hkA, ho]
      rw [hinner]
      simp only [seq_ok]
      rw [heq]
      have hr : A.length - k = (A.length - (k + 1)) + 1 := by omega
      rw [hr, List.range'_succ]
      simp
    · intro i
      rw [htacp i]
      by_cases h1 : k + 1 ≤ i ∧ i < A.length
      · rw [if_pos h1, if_pos (by omega)]
      · rw [if_neg h1]
        by_cases h2 : i = k
        · subst h2
          rw [if_pos (by omega), List.getElem?_set_eq_of_lt _ (by omega)]
        · rw [if_neg (by omega), List.getElem?_set_ne (by omega)]
    · intro j
      rw [htbcp' j]
      by_cases h1 : k + 1 < A.length ∧ j < B.length
      · rw [if_pos h1, if_pos (by omega)]
      · rw [if_neg h1, htbcp j]
        by_cases h2 : j < B.length
        · rw [if_pos (by omega), if_pos (by omega)]
        · rw [if_neg (by omega), if_neg (by omega)]
    · intro i j
      rw [hnumsp' i j]
      by_cases h1 : k + 1 ≤ i ∧ i < A.length ∧ j < B.length
      · rw [if_pos h1, if_pos (by omega)]
      · rw [if_neg h1, hnumsp i j]
        by_cases h2 : i = k ∧ j < B.length
        · have h2' : i = k := h2.1
          subst h2'
          rw [if_pos (by omega), if_pos (by omega)]
        · rw [if_neg (by omega), if_neg (by omega)]
    · intro i j
      rw [hpercp' i j]
      by_cases h1 : k + 1 ≤ i ∧ i < A.length ∧ j < B.length
      · rw [if_pos h1, if_pos (by omega)]
      · rw [if_neg h1, hpercp i j]
        by_cases h2 : i = k ∧ j < B.length
        · have h2' : i = k := h2.1
          subst h2'
          rw [if_pos (by omega), if_pos (by omega)]
        · rw [if_neg (by omega), if_neg (by omega)]

/-- Whole-run characterisation of `scrape_counts_main` under an all-success
oracle: the trace is the info request, then per A concept one single-term
request followed by the full inner sweep over B (one B single-term request
and one pair request per pair), then the close; the returned matrices hold
the pair counts and their numpy quotients by the A-side counts. -/
theorem scrape_counts_main_spec (o : CountsOracle) (db : String)
    (A ea B eb : List (List String)) (cnt : String → ℕ)
    (aU bU : ℕ → String) (pU : ℕ → ℕ → String)
    (hinfo : o.info = Except.ok ())
    (ho : ∀ url, o.count url = Except.ok (cnt url))
    (hndA : A.Nodup) (hndB : B.Nodup)
    (haU : ∀ i, i < A.length → countsAUrl (counts_search db) A ea i = Except.ok (aU i))
    (hbU : ∀ j, j < B.length → countsBUrl (counts_search db) B eb j = Except.ok (bU j))
    (hpU : ∀ i, i < A.length → ∀ j, j < B.length →
      countsPairUrl (counts_search db) A ea B eb i j = Except.ok (pU i j)) :
    ∃ r : CountsResult,
      scrape_counts_main o db A ea B eb =
        (Event.request (base_info db) ::
          ((List.range A.length).flatMap
            (fun i => Event.request (aU i) ::
              (List.range B.length).flatMap
                (fun j => [Event.request (bU j), Event.request (pU i j)])) ++
           [Event.close]),
         Except.ok r) ∧
      r.term_a_counts.length = A.length ∧ r.term_b_counts.length = B.length ∧
      r.dat_numbers.length = A.length ∧ r.dat_percent.length = A.length ∧
      (∀ i, i < A.length → r.term_a_counts[i]? = some (cnt (aU i))) ∧
      (∀ j, 0 < A.length → j < B.length → r.term_b_counts[j]? = some (cnt (bU j))) ∧
      (∀ i j, i < A.length → j < B.length →
        getCell r.dat_numbers i j = some (cnt (pU i j))) ∧
      (∀ i j, i < A.length → j < B.length →
        getCell r.dat_percent i j = some (npDiv (cnt (pU i j)) (cnt (aU i)))) := by
  obtain ⟨tac', tbc', nums', perc', heq, htac', htbc', hnums', hperc',
      htacp, htbcp, hnumsp, hpercp⟩ :=
    counts_a_loop_spec o (counts_search db) A ea B eb cnt aU bU pU ho hndA hndB
      haU hbU hpU A.length 0 (List.replicate A.length 0) (List.replicate B.length 0)
      (List.replicate A.length (List.replicate B.length 0))
      (List.replicate A.length (List.replicate B.length (NpFloat.finite 0)))
      (by omega) (by omega) (by simp) (by simp)
      (Shape_replicate _ _ _) (Shape_replicate _ _ _)
  simp only [List.drop_zero, Nat.sub_zero] at heq
  refine ⟨⟨nums', perc', tac', tbc'⟩, ?_, htac', htbc', hnums'.1, hperc'.1,
    ?_, ?_, ?_, ?_⟩
  · unfold scrape_counts_main scrape_counts_run
    simp only [seq_ok, lift_ok, List.nil_append, reqEvent, hinfo]
    rw [heq]
    simp [List.range_eq_range']
  · intro i hi
    rw [htacp i, if_pos (by omega)]
  · intro j hA hj
    rw [htbcp j, if_pos (by omega)]
  · intro i j hi hj
    rw [hnumsp i j, if_pos (by omega)]
  · intro i j hi hj
    rw [hpercp i j, if_pos (by omega)]

/-! ## Claim theorems -/

/-- Claim C2: for every (A,B) pair whose A-side single-term count is zero, the
normalised cell (`count / term_a_counts[a_ind]`, a numpy scalar division)
is the non-finite numpy value — `inf`, or `nan` when the raw count is also
zero.  This value is an explicit per-cell undefined-ratio marker: no cell
with a nonzero A-count can ever equal it, it is not a silent zero, and the
division raises no fault — witnessed by a full run with a zero A-count
that completes, stores the marker, and still closes the connection. -/
theorem C2_zero_acount_marker (count aCount : ℕ) (h : aCount = 0) :
    (npDiv count aCount = NpFloat.inf ∨ npDiv count aCount = NpFloat.nan) ∧
    npDiv count aCount ≠ NpFloat.finite 0 ∧
    (∀ c d : ℕ, d ≠ 0 → npDiv c d ≠ NpFloat.inf ∧ npDiv c d ≠ NpFloat.nan) ∧
    (scrape_counts zOracle [["x"]] [[""]] [] [] "pubmed").2 =
      Except.ok ⟨[[5]], [[NpFloat.inf]], [0], [0]⟩ ∧
    Event.close ∈ (scrape_counts zOracle [["x"]] [[""]] [] [] "pubmed").1 := by
  subst h
  refine ⟨?_, ?_, ?_, by decide, by decide⟩
  · by_cases hc : count = 0
    · subst hc; right; rfl
    · left; simp [npDiv, hc]
  · by_cases hc : count = 0
    · subst hc; simp [npDiv]
    · simp [npDiv, hc]
  · intro c d hd
    simp [npDiv, hd]

/-- Witness for C2 at the concrete cell of the zero-count run: raw count 5,
A-side count 0. -/
theorem C2_zero_acount_marker_witness :
    (npDiv 5 0 = NpFloat.inf ∨ npDiv 5 0 = NpFloat.nan) ∧
    npDiv 5 0 ≠ NpFloat.finite 0 :=
  ⟨(C2_zero_acount_marker 5 0 rfl).1, (C2_zero_acount_marker 5 0 rfl).2.1⟩

/-- Claim C5 counterexample: a run whose very first count request fails
(`RequestError`) propagates the error to the caller without ever reaching
`req.close()` — the source has no try/finally, so the connection is not
released on mid-run failure. -/
theorem C5_counterexample_no_close_on_failure :
    (scrape_counts failOracle [["x"]] [[""]] [] [] "pubmed").2 =
      Except.error Err.requestError ∧
    Event.close ∉ (scrape_counts failOracle [["x"]] [[""]] [] [] "pubmed").1 := by
  constructor
  · decide
  · decide

/-- Claim C5 (amended): on every run of `scrape_counts` or `scrape_words` that
completes without an uncaught exception, the last observable event is the
`Requester.close` call; runs that fail mid-way never reach it. -/
theorem C5_close_on_success :
    (∀ (o : CountsOracle) (A ea B eb : List (List String)) (db : String)
        (tr : List Event) (r : CountsResult),
        scrape_counts o A ea B eb db = (tr, Except.ok r) →
        ∃ tr', tr = tr' ++ [Event.close]) ∧
    (∀ (o : WordsOracle) (terms : List (List String)) (labels : List String)
        (excls : List (List String)) (db : String) (retmax : Option ℕ) (uh : Bool)
        (tr : List Event),
        scrape_words o terms labels excls db retmax uh = (tr, Except.ok ()) →
        ∃ tr', tr = tr' ++ [Event.close]) := by
  constructor
  · intro o A ea B eb db tr r h
    unfold scrape_counts scrape_counts_main at h
    by_cases hb : B.length = 0
    all_goals
      simp only [hb, if_true, if_false] at h
    all_goals
      rcases hrun : scrape_counts_run o db A ea (if B.length = 0 then A else B)
        (if B.length = 0 then ea else eb) with ⟨tr0, res0⟩
    case pos =>
      simp only [hb, if_true] at hrun
      rw [hrun] at h
      cases res0 with
      | ok v =>
        obtain ⟨tac, tbc, nums, perc⟩ := v
        simp only at h
        exact ⟨tr0, (Prod.mk.injEq _ _ _ _ ▸ h).1.symm⟩
      | error e => simp at h
    case neg =>
      simp only [hb, if_false] at hrun
      rw [hrun] at h
      cases res0 with
      | ok v =>
        obtain ⟨tac, tbc, nums, perc⟩ := v
        simp only at h
        exact ⟨tr0, (Prod.mk.injEq _ _ _ _ ▸ h).1.symm⟩
      | error e => simp at h
  · intro o terms labels excls db retmax uh tr h
    unfold scrape_words at h
    rcases hrun : scrape_words_run o terms labels excls db retmax uh with ⟨tr0, res0⟩
    rw [hrun] at h
    cases res0 with
    | ok v =>
      simp only at h
      exact ⟨tr0, (Prod.mk.injEq _ _ _ _ ▸ h).1.symm⟩
    | error e => simp at h

/-- Witness for C5 (amended) on concrete successful runs of both
functions: the trace ends in the close event. -/
theorem C5_close_on_success_witness :
    (scrape_counts uniOracle [] [] [] [] "pubmed").1.getLast? = some Event.close ∧
    (scrape_words wOracle [] [] [] "pubmed" none false).1.getLast? = some Event.close := by
  constructor
  · have e : scrape_counts uniOracle [] [] [] [] "pubmed" =
        ([Event.request (base_info "pubmed"), Event.close],
         Except.ok ⟨[], [], [], []⟩) := by decide
    obtain ⟨tr', h⟩ := C5_close_on_success.1 uniOracle [] [] [] [] "pubmed" _ _ e
    rw [e]
    rw [show ([Event.request (base_info "pubmed"), Event.close] : List Event) =
      tr' ++ [Event.close] from h]
    simp
  · have e : scrape_words wOracle [] [] [] "pubmed" none false =
        ([Event.request (base_info "pubmed"), Event.close], Except.ok ()) := by decide
    obtain ⟨tr', h⟩ := C5_close_on_success.2 wOracle [] [] [] "pubmed" none false _ e
    rw [e]
    rw [show ([Event.request (base_info "pubmed"), Event.close] : List Event) =
      tr' ++ [Event.close] from h]
    simp

/-- Claim C6 (code bug): calling `scrape_counts` with a non-empty `terms_lst_a`
and the default (empty) exclusion lists does not disable exclusion — it
raises `IndexError`, because line 98 indexes `excls_lst_a[a_ind]` into the
empty default list before `_mk`'s own empty-group guard can apply.  The
run aborts after the single info request, before any search request and
before `req.close()`. -/
theorem C6_default_exclusions_crash :
    scrape_counts uniOracle [["x"]] [] [] [] "pubmed" =
      ([Event.request (base_info "pubmed")], Except.error Err.indexError) ∧
    _mk [""] "NOT" = Except.ok "" := by
  constructor
  · decide
  · decide

/-- Claim C7: a term group whose first entry is the empty string contributes the
empty string to the URL (`_mk` returns `""` whatever connective it was
given), and at the pair-URL call site (lines 113–116) an absent B group
(with its absent exclusion group) makes the combined URL identical to the
A-only search URL — no dangling "OR"/"AND"/"NOT" token remains. -/
theorem C7_absent_group_empty (g : List String) (cm : String)
    (hg : g.head? = some "") :
    _mk g cm = Except.ok "" ∧
    (∀ (searchB : String) (A ea B eb : List (List String)) (a_ind b_ind : ℕ)
        (tb xb : List String),
        pyGet B b_ind = Except.ok tb → pyGet eb b_ind = Except.ok xb →
        tb.head? = some "" → xb.head? = some "" →
        countsPairUrl searchB A ea B eb a_ind b_ind =
          countsAUrl searchB A ea a_ind) := by
  constructor
  · rw [_mk, hg]
    simp
  · intro searchB A ea B eb a_ind b_ind tb xb hB hX htb hxb
    have h1 : _mk tb "AND" = Except.ok "" := by rw [_mk, htb]; simp
    have h2 : _mk xb "NOT" = Except.ok "" := by rw [_mk, hxb]; simp
    unfold countsPairUrl countsAUrl
    rcases hA : pyGet A a_ind with e | ta
    · simp [hA]
    · rcases hEA : pyGet ea a_ind with e | xa
      · simp [hA, hEA, hB, hX]
      · rcases hMA : _mk ta "" with e | ma
        · simp [hA, hEA, hMA, hB, hX, h1, h2]
        · rcases hMX : _mk xa "NOT" with e | mxa
          · simp [hA, hEA, hMA, hMX, hB, hX, h1, h2]
          · simp [hA, hEA, hMA, hMX, hB, hX, h1, h2]

/-- Witness for C7 at a concrete absent group and call site. -/
theorem C7_absent_group_empty_witness :
    _mk [""] "AND" = Except.ok "" ∧
    countsPairUrl "S" [["x"]] [[""]] [[""]] [[""]] 0 0 =
      countsAUrl "S" [["x"]] [[""]] 0 :=
  ⟨(C7_absent_group_empty [""] "AND" rfl).1,
   (C7_absent_group_empty [""] "AND" rfl).2 "S" [["x"]] [[""]] [[""]] [[""]] 0 0
     [""] [""] rfl rfl rfl rfl⟩

/-- Claim C9: `Words.run_scrape` passes only two positional arguments to
`scrape_words` (its `self.exclusions` lands in the `labels` slot), leaving
the required `exclusions` parameter unbound, so Python raises `TypeError`
at the call, before any request is issued (the event trace is empty); and
`scrape_words` returns `None` in any case, which cannot be unpacked into
the pair `(self.results, self.meta_dat)`. -/
theorem C9_run_scrape_type_error :
    run_scrape_model = ([], Except.error Err.typeError) ∧
    bindCall scrape_words_sig 2 ["db", "retmax", "use_hist", "verbose"] =
      Except.error Err.typeError ∧
    unpack2 PyVal.none = Except.error Err.typeError := by
  refine ⟨rfl, rfl, rfl⟩

/-- Claim C3: in every successful counts run, each normalised matrix cell equals
the numpy quotient of the raw co-occurrence cell by the A-side single-term
count; an omitted set B defaults to set A together with A's exclusions;
and on the spec's mocked example (single counts x=10, y=20; pair counts
10, 4, 4, 20) the raw matrix is [[10,4],[4,20]] and the normalised matrix
is [[1.0, 0.4], [0.2, 1.0]] (exact values, `NpFloat.finite`). -/
theorem C3_normalized_cells (o : CountsOracle) (db : String)
    (A ea B eb : List (List String)) (cnt : String → ℕ)
    (aU bU : ℕ → String) (pU : ℕ → ℕ → String)
    (hinfo : o.info = Except.ok ())
    (ho : ∀ url, o.count url = Except.ok (cnt url))
    (hndA : A.Nodup) (hndB : B.Nodup)
    (haU : ∀ i, i < A.length → countsAUrl (counts_search db) A ea i = Except.ok (aU i))
    (hbU : ∀ j, j < B.length → countsBUrl (counts_search db) B eb j = Except.ok (bU j))
    (hpU : ∀ i, i < A.length → ∀ j, j < B.length →
      countsPairUrl (counts_search db) A ea B eb i j = Except.ok (pU i j)) :
    (∃ tr r, scrape_counts_main o db A ea B eb = (tr, Except.ok r) ∧
      ∀ i j, i < A.length → j < B.length →
        ∃ rawc ac, getCell r.dat_numbers i j = some rawc ∧
          r.term_a_counts[i]? = some ac ∧
          getCell r.dat_percent i j = some (npDiv rawc ac)) ∧
    (∀ (o₂ : CountsOracle) (A₂ ea₂ eb₂ : List (List String)) (db₂ : String),
      scrape_counts o₂ A₂ ea₂ [] eb₂ db₂ = scrape_counts_main o₂ db₂ A₂ ea₂ A₂ ea₂) ∧
    (scrape_counts exOracle [["x"], ["y"]] [[""], [""]] [] [] "pubmed").2 =
      Except.ok ⟨[[10, 4], [4, 20]],
        [[NpFloat.finite 1, NpFloat.finite (2/5)],
         [NpFloat.finite (1/5), NpFloat.finite 1]],
        [10, 20], [10, 20]⟩ := by
  refine ⟨?_, ?_, ?_⟩
  · obtain ⟨r, heq, _, _, _, _, htac, _, hnums, hperc⟩ :=
      scrape_counts_main_spec o db A ea B eb cnt aU bU pU hinfo ho hndA hndB
        haU hbU hpU
    refine ⟨_, r, heq, ?_⟩
    intro i j hi hj
    exact ⟨cnt (pU i j), cnt (aU i), hnums i j hi hj, htac i hi, hperc i j hi hj⟩
  · intro o₂ A₂ ea₂ eb₂ db₂
    unfold scrape_counts
    simp
  · have base : (scrape_counts exOracle [["x"], ["y"]] [[""], [""]] [] [] "pubmed").2 =
        Except.ok ⟨[[10, 4], [4, 20]],
          [[npDiv 10 10, npDiv 4 10], [npDiv 4 20, npDiv 20 20]],
          [10, 20], [10, 20]⟩ := rfl
    have e1 : npDiv 10 10 = NpFloat.finite 1 := by norm_num [npDiv]
    have e2 : npDiv 4 10 = NpFloat.finite (2/5) := by norm_num [npDiv]
    have e3 : npDiv 4 20 = NpFloat.finite (1/5) := by norm_num [npDiv]
    have e4 : npDiv 20 20 = NpFloat.finite 1 := by norm_num [npDiv]
    rw [base, e1, e2, e3, e4]

/-- Witness for C3 on the mocked example itself: both the per-cell
quotient property and the expected matrices at the concrete oracle. -/
theorem C3_normalized_cells_witness :
    (scrape_counts exOracle [["x"], ["y"]] [[""], [""]] [] [] "pubmed").2 =
      Except.ok ⟨[[10, 4], [4, 20]],
        [[NpFloat.finite 1, NpFloat.finite (2/5)],
         [NpFloat.finite (1/5), NpFloat.finite 1]],
        [10, 20], [10, 20]⟩ :=
  (C3_normalized_cells exOracle "pubmed" [["x"], ["y"]] [[""], [""]]
    [["x"], ["y"]] [[""], [""]] exCnt
    (fun i => if i = 0 then exU "x" else exU "y")
    (fun j => if j = 0 then exU "x" else exU "y")
    (fun i j => exP (if i = 0 then "x" else "y") (if j = 0 then "x" else "y"))
    rfl (fun _ => rfl) (by decide) (by decide)
    (by decide) (by decide) (by decide)).2.2

/-- Claim C4 counterexample: with A = [["x"], ["y"]] and B = [["z"]], the single
B concept's count URL is requested twice in one run — once in each
iteration of the outer A loop — refuting "exactly once per run". -/
theorem C4_counterexample_refetch :
    ((scrape_counts uniOracle [["x"], ["y"]] [[""], [""]] [["z"]] [[""]] "pubmed").1).count
        (Event.request (exU "z")) = 2 ∧ (2 : ℕ) ≠ 1 := by
  constructor
  · decide
  · decide

/-- Claim C4 (amended): in every successful counts run, each B concept's
single-term count is fetched once per iteration of the outer A loop — the
trace is exactly, per A concept, its single-term request followed by the
full sweep of per-B (single-term, pair) request pairs — so a B count is
requested `len(A)` times per run, not once. -/
theorem C4_b_count_per_outer_iteration (o : CountsOracle) (db : String)
    (A ea B eb : List (List String)) (cnt : String → ℕ)
    (aU bU : ℕ → String) (pU : ℕ → ℕ → String)
    (hinfo : o.info = Except.ok ())
    (ho : ∀ url, o.count url = Except.ok (cnt url))
    (hndA : A.Nodup) (hndB : B.Nodup)
    (haU : ∀ i, i < A.length → countsAUrl (counts_search db) A ea i = Except.ok (aU i))
    (hbU : ∀ j, j < B.length → countsBUrl (counts_search db) B eb j = Except.ok (bU j))
    (hpU : ∀ i, i < A.length → ∀ j, j < B.length →
      countsPairUrl (counts_search db) A ea B eb i j = Except.ok (pU i j)) :
    ∃ r : CountsResult,
      scrape_counts_main o db A ea B eb =
        (Event.request (base_info db) ::
          ((List.range A.length).flatMap
            (fun i => Event.request (aU i) ::
              (List.range B.length).flatMap
                (fun j => [Event.request (bU j), Event.request (pU i j)])) ++
           [Event.close]),
         Except.ok r) := by
  obtain ⟨r, heq, _⟩ :=
    scrape_counts_main_spec o db A ea B eb cnt aU bU pU hinfo ho hndA hndB
      haU hbU hpU
  exact ⟨r, heq⟩

/-- Witness for C4 (amended) at the concrete run of the counterexample:
the full trace, with the B request appearing in both outer iterations. -/
theorem C4_b_count_per_outer_iteration_witness :
    (scrape_counts_main uniOracle "pubmed" [["x"], ["y"]] [[""], [""]]
        [["z"]] [[""]]).1 =
      [Event.request (base_info "pubmed"),
       Event.request (exU "x"), Event.request (exU "z"), Event.request (exP "x" "z"),
       Event.request (exU "y"), Event.request (exU "z"), Event.request (exP "y" "z"),
       Event.close] := by
  obtain ⟨r, heq⟩ :=
    C4_b_count_per_outer_iteration uniOracle "pubmed" [["x"], ["y"]] [[""], [""]]
      [["z"]] [[""]] (fun _ => 0)
      (fun i => if i = 0 then exU "x" else exU "y")
      (fun _ => exU "z")
      (fun i _ => exP (if i = 0 then "x" else "y") "z")
      rfl (fun _ => rfl) (by decide) (by decide)
      (by decide) (by decide) (by decide)
  have h1 := congrArg Prod.fst heq
  simp only at h1
  rw [h1]
  decide

/-- Claim C1: a history-mode run of `scrape_words` (here over one concept, whose
search reports `count` results) issues exactly `ceil(count/100)` fetch
requests, at `ret_start` offsets `0, 100, 200, …` — strictly increasing and
all strictly below `count` — and a count of 0 issues no fetch request at
all. -/
theorem C1_hist_pagination (o : WordsOracle) (db lab targ : String)
    (term excl : List String) (retmax : Option ℕ) (page : SearchPage)
    (hinfo : o.info = Except.ok ())
    (harg : wordsTermArg term excl = Except.ok targ)
    (hsearch : o.search (words_search db true retmax ++ targ) = Except.ok page)
    (hfetch : ∀ url, o.fetchPage url = Except.ok ()) :
    scrape_words o [term] [lab] [excl] db retmax true =
      (Event.request (base_info db) ::
        Event.request (words_search db true retmax ++ targ) ::
        ((histLoop page.count 0).map
          (fun r => Event.request (artUrl (base_fetch db) page.webenv page.querykey r)) ++
         [Event.close]),
       Except.ok ()) ∧
    histLoop page.count 0 =
      (List.range ((page.count + 99) / 100)).map (fun i => i * 100) ∧
    (histLoop page.count 0).length = (page.count + 99) / 100 ∧
    (histLoop page.count 0).Pairwise (· < ·) ∧
    (∀ r ∈ histLoop page.count 0, r < page.count) ∧
    (page.count = 0 → histLoop page.count 0 = []) := by
  have henum : ([lab] : List String).enum = [(0, lab)] := rfl
  have hterm : pyGet [term] 0 = Except.ok term := rfl
  have hexcl : pyGet [excl] 0 = Except.ok excl := rfl
  have hloop := hist_fetch_loop_eq o (base_fetch db) page.webenv page.querykey
    page.count hfetch
  refine ⟨?_, ?_, ?_, ?_, ?_, ?_⟩
  · unfold scrape_words scrape_words_run
    rw [henum]
    simp only [words_loop, words_concept, hterm, hexcl, harg, hsearch, hinfo, hloop,
      seq_ok, lift_ok, reqEvent, List.nil_append, List.append_nil, if_true]
    simp
  · exact histLoop_eq_map page.count
  · rw [histLoop_eq_map page.count]
    simp
  · rw [histLoop_eq_map page.count, List.pairwise_map]
    refine (List.pairwise_lt_range _).imp ?_
    intro a b h
    omega
  · intro r hr
    rw [histLoop_eq_map page.count] at hr
    simp only [List.mem_map, List.mem_range] at hr
    obtain ⟨i, hi, rfl⟩ := hr
    omega
  · intro h0
    rw [h0]
    exact histLoop_stop 0 0 (by omega)

/-- Witness for C1 at a concrete history run with count 250: three fetch
pages at offsets 0, 100, 200. -/
theorem C1_hist_pagination_witness :
    wordsTermArg ["brain"] [""] = Except.ok "(\"brain\")" ∧
    histLoop 250 0 = [0, 100, 200] ∧
    (histLoop 250 0).length = (250 + 99) / 100 := by
  have h := C1_hist_pagination wOracle "pubmed" "Brain" "(\"brain\")" ["brain"] [""]
    none ⟨250, "WE", "QK", ["11", "22"]⟩ rfl (by decide) rfl (fun _ => rfl)
  refine ⟨by decide, ?_, h.2.2.1⟩
  rw [h.2.1]
  decide

/-- Claim C10: when a non-history run's search response contains zero `<id>`
nodes, `_ids_to_str` indexes `ids[0]` of the empty list and raises
`IndexError`: the run aborts for the concept (no fetch request, no
`close`) instead of producing an empty result. -/
theorem C10_empty_ids_raises (o : WordsOracle) (db lab targ : String)
    (term excl : List String) (retmax : Option ℕ) (page : SearchPage)
    (hinfo : o.info = Except.ok ())
    (harg : wordsTermArg term excl = Except.ok targ)
    (hsearch : o.search (words_search db false retmax ++ targ) = Except.ok page)
    (hids : page.ids = []) :
    scrape_words o [term] [lab] [excl] db retmax false =
      ([Event.request (base_info db),
        Event.request (words_search db false retmax ++ targ)],
       Except.error Err.indexError) ∧
    _ids_to_str [] = Except.error Err.indexError := by
  have henum : ([lab] : List String).enum = [(0, lab)] := rfl
  have hterm : pyGet [term] 0 = Except.ok term := rfl
  have hexcl : pyGet [excl] 0 = Except.ok excl := rfl
  have hstr : _ids_to_str page.ids = Except.error Err.indexError := by
    rw [hids]
    rfl
  refine ⟨?_, rfl⟩
  unfold scrape_words scrape_words_run
  rw [henum]
  simp only [words_loop, words_concept, hterm, hexcl, harg, hsearch, hinfo, hstr,
    seq_ok, lift_ok, lift_error, seq_error, reqEvent, List.nil_append,
    List.append_nil, if_false, Bool.false_eq_true]
  simp

/-- Witness for C10 at a concrete oracle whose search response has no
ids. -/
theorem C10_empty_ids_raises_witness :
    scrape_words wEmptyOracle [["x"]] ["X"] [[""]] "pubmed" none false =
      ([Event.request (base_info "pubmed"),
        Event.request (words_search "pubmed" false none ++ "(\"x\")")],
       Except.error Err.indexError) :=
  (C10_empty_ids_raises wEmptyOracle "pubmed" "X" "(\"x\")" ["x"] [""] none
    ⟨0, "WE", "QK", []⟩ rfl (by decide) rfl rfl).1

/-- Claim C8: word-list extraction maps an absent abstract to the absent marker
`None` (not an empty list); and on the abstract "The Cat sat." with a
stopword set containing "the" (and containing neither "cat" nor "sat") it
returns exactly ["cat", "sat"] — lowercased, with the stopword and the
punctuation token removed. -/
theorem C8_process_words (tokenize : String → List String) (stop : List String)
    (htok : tokenize "The Cat sat." = ["The", "Cat", "sat", "."])
    (hthe : stop.contains "the" = true)
    (hcat : stop.contains "cat" = false)
    (hsat : stop.contains "sat" = false) :
    _process_words tokenize stop none = none ∧
    _process_words tokenize stop (some "The Cat sat.") = some ["cat", "sat"] := by
  refine ⟨rfl, ?_⟩
  have e1 : pyLower "The" = "the" := by decide
  have e2 : pyLower "Cat" = "cat" := by decide
  have e3 : pyLower "sat" = "sat" := by decide
  have e4 : pyLower "." = "." := by decide
  have a1 : pyIsAlnum "Cat" = true := by decide
  have a2 : pyIsAlnum "sat" = true := by decide
  have a3 : pyIsAlnum "." = false := by decide
  simp only [_process_words, htok, List.filter, e1, e2, e3, e4, a1, a2, a3,
    hthe, hcat, hsat, Bool.not_true, Bool.not_false, Bool.false_and,
    Bool.true_and, Bool.and_false, Bool.and_true]
  simp [e2, e3]

/-- Witness for C8 with the concrete pluggable normalizer and the stopword
set {"the"}. -/
theorem C8_process_words_witness :
    _process_words simpleTokenize ["the"] none = none ∧
    _process_words simpleTokenize ["the"] (some "The Cat sat.") = some ["cat", "sat"] :=
  C8_process_words simpleTokenize ["the"] (by decide) (by decide) (by decide) (by decide)
